import Mathlib

/-!
Shallow embedding of the 46elks webhook bridge
(src/tools/46elks-bridge/elks_bridge.py).

The program is a single HTTP POST handler.  The body is decoded with
urllib.parse.parse_qs, and the request is dispatched on the presence of
the key "callid" to a voice handler or an SMS handler.  We embed:

* the form decoding (parse_qs and its helpers, modelled from the CPython
  standard library semantics with default options: blank values dropped,
  pairs without an equals sign dropped, separator the ampersand,
  plus-to-space and percent decoding with UTF-8 reassembly);
* the configuration record (module-level constants read from the
  environment at startup);
* the two handlers and the dispatcher, returning the printed log lines
  and the HTTP response (status, content type, structured body).

Python dictionary indexing of a list can raise, so handlers return an
Option: none models an uncaught exception.
-/

namespace ElksBridge

/-- Value of a hexadecimal digit character, none when the character is not
a hex digit.  Used by percent-decoding. -/
def hexVal (c : Char) : Option Nat :=
  if '0' ≤ c ∧ c ≤ '9' then some (c.toNat - '0'.toNat)
  else if 'a' ≤ c ∧ c ≤ 'f' then some (c.toNat - 'a'.toNat + 10)
  else if 'A' ≤ c ∧ c ≤ 'F' then some (c.toNat - 'A'.toNat + 10)
  else none

/-- UTF-8 encoding of a single character, as a list of bytes. -/
def encodeChar (c : Char) : List UInt8 :=
  let n := c.toNat
  if n < 0x80 then [UInt8.ofNat n]
  else if n < 0x800 then
    [UInt8.ofNat (0xC0 + n / 64), UInt8.ofNat (0x80 + n % 64)]
  else if n < 0x10000 then
    [UInt8.ofNat (0xE0 + n / 4096), UInt8.ofNat (0x80 + (n / 64) % 64),
     UInt8.ofNat (0x80 + n % 64)]
  else
    [UInt8.ofNat (0xF0 + n / 262144), UInt8.ofNat (0x80 + (n / 4096) % 64),
     UInt8.ofNat (0x80 + (n / 64) % 64), UInt8.ofNat (0x80 + n % 64)]

/-- Percent-decoding pass of urllib.parse.unquote: each valid %XX escape
becomes the byte XX, every other character contributes its UTF-8 bytes;
an invalid escape is kept literally, as CPython does. -/
def percentDecodeBytes : List Char → List UInt8
  | [] => []
  | '%' :: h1 :: h2 :: rest =>
    match hexVal h1, hexVal h2 with
    | some a, some b => UInt8.ofNat (16 * a + b) :: percentDecodeBytes rest
    | _, _ => encodeChar '%' ++ percentDecodeBytes (h1 :: h2 :: rest)
  | c :: rest => encodeChar c ++ percentDecodeBytes rest

/-- Whether a byte is a UTF-8 continuation byte. -/
def isCont (b : UInt8) : Bool := decide (0x80 ≤ b.toNat ∧ b.toNat < 0xC0)

/-- The Unicode replacement character, produced by decoding with
errors equal to replace. -/
def replacementChar : Char := '�'

/-- Character with the given code point, replacement character when the
code point is not a valid scalar value. -/
def mkCharD (n : Nat) : Char :=
  if n.isValidChar then Char.ofNat n else replacementChar

/-- UTF-8 decoding with explicit fuel (each step consumes at least one
byte, so fuel equal to the byte count suffices).  Invalid sequences
decode to the replacement character, approximating the CPython decoder
with errors equal to replace. -/
def utf8DecodeFuel : Nat → List UInt8 → List Char
  | 0, _ => []
  | _, [] => []
  | fuel + 1, b :: rest =>
    let n := b.toNat
    if n < 0x80 then Char.ofNat n :: utf8DecodeFuel fuel rest
    else if 0xC2 ≤ n ∧ n ≤ 0xDF then
      match rest with
      | b2 :: rest2 =>
        if isCont b2 then
          mkCharD ((n - 0xC0) * 64 + (b2.toNat - 0x80)) :: utf8DecodeFuel fuel rest2
        else replacementChar :: utf8DecodeFuel fuel rest
      | [] => [replacementChar]
    else if 0xE0 ≤ n ∧ n ≤ 0xEF then
      match rest with
      | b2 :: b3 :: rest3 =>
        if isCont b2 && isCont b3 then
          let cp := (n - 0xE0) * 4096 + (b2.toNat - 0x80) * 64 + (b3.toNat - 0x80)
          (if 0x800 ≤ cp then mkCharD cp else replacementChar) :: utf8DecodeFuel fuel rest3
        else replacementChar :: utf8DecodeFuel fuel rest
      | _ => [replacementChar]
    else if 0xF0 ≤ n ∧ n ≤ 0xF4 then
      match rest with
      | b2 :: b3 :: b4 :: rest4 =>
        if isCont b2 && isCont b3 && isCont b4 then
          let cp := (n - 0xF0) * 262144 + (b2.toNat - 0x80) * 4096 +
            (b3.toNat - 0x80) * 64 + (b4.toNat - 0x80)
          (if 0x10000 ≤ cp then mkCharD cp else replacementChar) :: utf8DecodeFuel fuel rest4
        else replacementChar :: utf8DecodeFuel fuel rest
      | _ => [replacementChar]
    else replacementChar :: utf8DecodeFuel fuel rest

/-- UTF-8 decoding of a byte list. -/
def utf8Decode (bs : List UInt8) : List Char := utf8DecodeFuel bs.length bs

/-- Model of urllib.parse.unquote with UTF-8 encoding and errors
equal to replace. -/
def unquote (s : String) : String :=
  String.mk (utf8Decode (percentDecodeBytes s.data))

/-- Model of urllib.parse.unquote applied after the plus-to-space
replacement that parse_qsl performs on names and values. -/
def unquotePlus (cs : List Char) : String :=
  unquote (String.mk (cs.map fun c => if c == '+' then ' ' else c))

/-- Split a character list on every occurrence of a separator, keeping
empty fragments: the behaviour of the Python str.split method with an
explicit separator. -/
def splitListOnChar (sep : Char) : List Char → List (List Char)
  | [] => [[]]
  | c :: rest =>
    let r := splitListOnChar sep rest
    if c == sep then [] :: r
    else
      match r with
      | [] => [[c]]
      | g :: gs => (c :: g) :: gs

/-- Split a character list at the first equals sign, none when there is
none: the Python expression name_value.split with separator the equals
sign and maxsplit one, which yields two parts exactly when an equals
sign occurs. -/
def splitFirstEq : List Char → Option (List Char × List Char)
  | [] => none
  | c :: rest =>
    if c == '=' then some ([], rest)
    else
      match splitFirstEq rest with
      | none => none
      | some (k, v) => some (c :: k, v)

/-- Model of urllib.parse.parse_qsl with default options: the query is
split on ampersands; a pair without an equals sign or with a blank value
is dropped (keep_blank_values is false); names and values are decoded
with plus-to-space and percent decoding. -/
def parse_qsl (qs : String) : List (String × String) :=
  (splitListOnChar '&' qs.data).filterMap fun nv =>
    match splitFirstEq nv with
    | none => none
    | some (k, v) =>
      if v.isEmpty then none
      else some (unquotePlus k, unquotePlus v)

/-- Decoded form parameters: each key maps to the ordered list of its
values, keys in order of first appearance, as a Python dict built by
parse_qs. -/
abbrev Params := List (String × List String)

/-- Append a value to the entry of a key, creating the entry at the end
when the key is new: the grouping step of parse_qs. -/
def insertParam (acc : Params) (k v : String) : Params :=
  match acc with
  | [] => [(k, [v])]
  | (k1, vs) :: rest =>
    if k1 == k then (k1, vs ++ [v]) :: rest else (k1, vs) :: insertParam rest k v

/-- Model of urllib.parse.parse_qs with default options. -/
def parse_qs (qs : String) : Params :=
  (parse_qsl qs).foldl (fun acc kv => insertParam acc kv.1 kv.2) []

/-- Lookup of a key in the decoded parameters. -/
def Params.lookup (p : Params) (k : String) : Option (List String) :=
  (p.find? fun kv => kv.1 == k).map (·.2)

/-- Membership test on the decoded parameters: the Python expression
key in params. -/
def Params.hasKey (p : Params) (k : String) : Bool := (p.lookup k).isSome

/-- The Python expression params.get(key, [d])[0]: first value of the key,
with a one-element default list; indexing an empty list raises, hence
the Option result. -/
def Params.getFirst (p : Params) (k d : String) : Option String :=
  ((p.lookup k).getD [d]).head?

/-- Startup configuration, read once from the environment: PRESS_DIGIT
defaults to the string 0, RECORDING_LIMIT to the integer 60,
FORWARD_TO_NUMBER is none when the variable is unset. -/
structure Config where
  PRESS_DIGIT : String
  RECORDING_LIMIT : Int
  FORWARD_TO_NUMBER : Option String

/-- Python truthiness of an optional string: false for none and for the
empty string.  The source tests PRESS_DIGIT and FORWARD_TO_NUMBER this
way. -/
def strTruthy : Option String → Bool
  | some s => !s.isEmpty
  | none => false

/-- JSON value, as far as the program builds them: strings, integers and
objects with fields in insertion order. -/
inductive JVal where
  | str : String → JVal
  | int : Int → JVal
  | obj : List (String × JVal) → JVal

/-- Field lookup in a JSON object, none on other values or absent keys. -/
def JVal.get? : JVal → String → Option JVal
  | .obj fields, k => (fields.find? fun kv => kv.1 == k).map (·.2)
  | _, _ => none

/-- Response body: the serialized JSON object of send_json, kept
structured, or the plain text of send_ok. -/
inductive Body where
  | json : List (String × JVal) → Body
  | text : String → Body

/-- HTTP response as the handler emits it: status, Content-type header
and body. -/
structure Response where
  status : Nat
  contentType : String
  body : Body

/-- The response of the send_ok helper: status 200, text/plain, body OK. -/
def okResponse : Response :=
  { status := 200, contentType := "text/plain", body := Body.text "OK" }

/-- Result of a handler: the console lines printed, in order, and the
HTTP response sent. -/
structure HandlerOutput where
  logs : List String
  response : Response

/-- Twenty dashes, the separator line printed by the voice handler. -/
def dashLine : String := "--------------------"

/-- Forty equals signs, the separator line printed by the SMS handler. -/
def eqLine : String := "========================================"

/-- The instructions dictionary built by the initial-call branch of the
voice handler, fields in Python dict insertion order: recordcall always
first; then, when PRESS_DIGIT is truthy, play and next (next connects
when FORWARD_TO_NUMBER is truthy, else records); else, when
FORWARD_TO_NUMBER is truthy, connect; else record and timelimit. -/
def buildInstructions (cfg : Config) (callback : String) : List (String × JVal) :=
  let base := [("recordcall", JVal.str callback)]
  if !cfg.PRESS_DIGIT.isEmpty then
    base ++ [("play", JVal.str ("sound/dtmf/PPPPPPPPPP" ++ cfg.PRESS_DIGIT)),
      ("next",
        if strTruthy cfg.FORWARD_TO_NUMBER then
          JVal.obj [("connect", JVal.str (cfg.FORWARD_TO_NUMBER.getD ""))]
        else
          JVal.obj [("record", JVal.str callback),
            ("timelimit", JVal.int cfg.RECORDING_LIMIT)])]
  else if strTruthy cfg.FORWARD_TO_NUMBER then
    base ++ [("connect", JVal.str (cfg.FORWARD_TO_NUMBER.getD ""))]
  else
    base ++ [("record", JVal.str callback),
      ("timelimit", JVal.int cfg.RECORDING_LIMIT)]

/-- The handle_voice method.  hostHeader is the value of the Host header
when present.  The from and recording_url accesses index a list, so the
result is none when that list indexing would raise (never the case for
parse_qs output). -/
def handle_voice (cfg : Config) (hostHeader : Option String) (params : Params) :
    Option HandlerOutput :=
  match params.getFirst "from" "?" with
  | none => none
  | some fromVal =>
    let openLogs := ["\n" ++ dashLine, "INCOMING VOICE CALL DETECTED", "From: " ++ fromVal]
    if params.hasKey "recording_url" then
      match params.getFirst "recording_url" "" with
      | none => none
      | some url =>
        some { logs := openLogs ++ ["RECORDING FINISHED: " ++ url,
                 "Open that URL in your browser to hear the code!", dashLine ++ "\n"],
               response := okResponse }
    else
      let host := hostHeader.getD "localhost:5000"
      let callback := "https://" ++ host
      let branchLogs :=
        if !cfg.PRESS_DIGIT.isEmpty then
          ["Auto-pressing \x27" ++ cfg.PRESS_DIGIT ++ "\x27 (5s delay)..."]
        else if strTruthy cfg.FORWARD_TO_NUMBER then
          ["Forwarding to " ++ cfg.FORWARD_TO_NUMBER.getD "" ++ "..."]
        else []
      some { logs := openLogs ++ ["Initiating Bridge Sequence..."] ++ branchLogs ++
               [dashLine ++ "\n"],
             response := ⟨200, "application/json", Body.json (buildInstructions cfg callback)⟩ }

/-- The handle_sms method: from defaults to Unknown, message to the empty
string; the response is always the OK response. -/
def handle_sms (params : Params) : Option HandlerOutput :=
  match params.getFirst "from" "Unknown" with
  | none => none
  | some smsFrom =>
    match params.getFirst "message" "" with
    | none => none
    | some smsMsg =>
      some { logs := ["\n" ++ eqLine, "NEW INCOMING SMS", "From:    " ++ smsFrom,
               "Message: " ++ smsMsg, eqLine ++ "\n"],
             response := okResponse }

/-- Dispatch step of do_POST after body decoding: voice when the decoded
parameters contain the key callid, SMS otherwise. -/
def handle_params (cfg : Config) (hostHeader : Option String) (params : Params) :
    Option HandlerOutput :=
  if params.hasKey "callid" then handle_voice cfg hostHeader params
  else handle_sms params

/-- The do_POST method on an already read body: decode the body with
parse_qs, then dispatch. -/
def do_POST (cfg : Config) (hostHeader : Option String) (body : String) :
    Option HandlerOutput :=
  handle_params cfg hostHeader (parse_qs body)

/-- Sequential processing of several request bodies.  The server builds a
fresh handler per request and the configuration is immutable, so each
response is the same pure function of its own request body and headers;
no state flows between list elements. -/
def serve (cfg : Config) (hostHeader : Option String) (bodies : List String) :
    List (Option HandlerOutput) :=
  bodies.map (do_POST cfg hostHeader)

/-- Field lookup in the JSON body of a response, none when the body is
plain text. -/
def Response.jsonField (r : Response) (k : String) : Option JVal :=
  match r.body with
  | .json fields => (JVal.obj fields).get? k
  | .text _ => none

/-- Restriction of decoded parameters to the first value of every key. -/
def firstOnly (p : Params) : Params := p.map fun kv => (kv.1, kv.2.take 1)

/-- Well-formedness of decoded parameters: every value list is
non-empty.  parse_qs only ever creates or extends one-element lists, so
its output is well-formed. -/
def ParamsWF (p : Params) : Prop := ∀ kv ∈ p, kv.2 ≠ []

theorem insertParam_wf {acc : Params} (k v : String) (h : ParamsWF acc) :
    ParamsWF (insertParam acc k v) := by
  induction acc with
  | nil =>
    intro kv hm
    simp only [insertParam, List.mem_singleton] at hm
    subst hm; simp
  | cons hd tl ih =>
    intro kv hm
    obtain ⟨k1, vs⟩ := hd
    simp only [insertParam] at hm
    split at hm
    · rcases List.mem_cons.mp hm with h1 | h2
      · subst h1; simp
      · exact h _ (List.mem_cons_of_mem _ h2)
    · rcases List.mem_cons.mp hm with h1 | h2
      · subst h1; exact h _ (List.mem_cons_self _ _)
      · exact ih (fun kv hk => h kv (List.mem_cons_of_mem _ hk)) _ h2

theorem foldl_insertParam_wf (l : List (String × String)) (acc : Params)
    (h : ParamsWF acc) :
    ParamsWF (l.foldl (fun acc kv => insertParam acc kv.1 kv.2) acc) := by
  induction l generalizing acc with
  | nil => exact h
  | cons hd tl ih => exact ih _ (insertParam_wf _ _ h)

theorem parse_qs_wf (qs : String) : ParamsWF (parse_qs qs) :=
  foldl_insertParam_wf _ _ (by intro kv hm; cases hm)

theorem getFirst_eq_some {p : Params} (hw : ParamsWF p) (k d : String) :
    ∃ v, p.getFirst k d = some v := by
  unfold Params.getFirst Params.lookup
  cases hfind : p.find? (fun kv => kv.1 == k) with
  | none => exact ⟨d, by simp [hfind]⟩
  | some kv =>
    have hmem := List.mem_of_find?_eq_some hfind
    have hne := hw kv hmem
    cases hv : kv.2 with
    | nil => exact absurd hv hne
    | cons a t => exact ⟨a, by simp [hfind, hv]⟩

theorem getFirst_of_not_hasKey {p : Params} {k : String}
    (h : p.hasKey k = false) (d : String) : p.getFirst k d = some d := by
  unfold Params.getFirst
  unfold Params.hasKey at h
  cases hfind : p.lookup k with
  | none => simp [hfind]
  | some vs => rw [hfind] at h; simp at h

theorem handle_sms_eq {p : Params} {f m : String}
    (hf : p.getFirst "from" "Unknown" = some f)
    (hm : p.getFirst "message" "" = some m) :
    handle_sms p = some ⟨["\n" ++ eqLine, "NEW INCOMING SMS", "From:    " ++ f,
      "Message: " ++ m, eqLine ++ "\n"], okResponse⟩ := by
  simp only [handle_sms, hf, hm]

theorem handle_voice_initial {p : Params} (hw : ParamsWF p) (cfg : Config)
    (hostHeader : Option String) (hr : p.hasKey "recording_url" = false) :
    ∃ out, handle_voice cfg hostHeader p = some out ∧
      out.response = ⟨200, "application/json",
        Body.json (buildInstructions cfg ("https://" ++ hostHeader.getD "localhost:5000"))⟩ := by
  obtain ⟨f, hf⟩ := getFirst_eq_some hw "from" "?"
  simp only [handle_voice, hf, hr, Bool.false_eq_true, if_false]
  exact ⟨_, rfl, rfl⟩

theorem handle_voice_recording {p : Params} (hw : ParamsWF p) (cfg : Config)
    (hostHeader : Option String) (hr : p.hasKey "recording_url" = true) :
    ∃ out, handle_voice cfg hostHeader p = some out ∧ out.response = okResponse := by
  obtain ⟨f, hf⟩ := getFirst_eq_some hw "from" "?"
  obtain ⟨u, hu⟩ := getFirst_eq_some hw "recording_url" ""
  simp only [handle_voice, hf, hu, hr, if_true]
  exact ⟨_, rfl, rfl⟩

theorem handle_voice_status {p : Params} (hw : ParamsWF p) (cfg : Config)
    (hostHeader : Option String) :
    ∃ out, handle_voice cfg hostHeader p = some out ∧ out.response.status = 200 := by
  cases hr : p.hasKey "recording_url" with
  | false =>
    obtain ⟨out, hout, hresp⟩ := handle_voice_initial hw cfg hostHeader hr
    exact ⟨out, hout, by rw [hresp]⟩
  | true =>
    obtain ⟨out, hout, hresp⟩ := handle_voice_recording hw cfg hostHeader hr
    exact ⟨out, hout, by rw [hresp]; rfl⟩

theorem buildInstructions_recordcall (cfg : Config) (cb : String) :
    (JVal.obj (buildInstructions cfg cb)).get? "recordcall" = some (JVal.str cb) := by
  by_cases h1 : cfg.PRESS_DIGIT.isEmpty
  · by_cases h2 : strTruthy cfg.FORWARD_TO_NUMBER
    · simp only [buildInstructions, h1, h2, Bool.not_true, Bool.false_eq_true, if_false, if_true]
      rfl
    · simp only [buildInstructions, h1, eq_self_iff_true, Bool.not_true, Bool.false_eq_true,
        if_false, Bool.not_eq_true] at *
      simp only [h2, Bool.false_eq_true, if_false]
      rfl
  · have h1' : cfg.PRESS_DIGIT.isEmpty = false := by
      cases he : cfg.PRESS_DIGIT.isEmpty
      · rfl
      · exact absurd he h1
    simp only [buildInstructions, h1', Bool.not_false, if_true]
    rfl

theorem isEmpty_false_of_ne {s : String} (h : s ≠ "") : s.isEmpty = false := by
  cases he : s.isEmpty
  · rfl
  · exact absurd ((String.isEmpty_iff s).mp he) h

theorem buildInstructions_play (cfg : Config) (cb : String)
    (hp : cfg.PRESS_DIGIT.isEmpty = false) :
    (JVal.obj (buildInstructions cfg cb)).get? "play" =
      some (JVal.str ("sound/dtmf/PPPPPPPPPP" ++ cfg.PRESS_DIGIT)) := by
  simp only [buildInstructions, hp, Bool.not_false, if_true]
  rfl

theorem buildInstructions_next_connect (cfg : Config) (cb fwd : String)
    (hp : cfg.PRESS_DIGIT.isEmpty = false)
    (hf : cfg.FORWARD_TO_NUMBER = some fwd) (hne : fwd ≠ "") :
    (JVal.obj (buildInstructions cfg cb)).get? "next" =
      some (JVal.obj [("connect", JVal.str fwd)]) := by
  have ht : strTruthy (some fwd) = true := by
    simp [strTruthy, isEmpty_false_of_ne hne]
  simp only [buildInstructions, hp, Bool.not_false, if_true, hf, ht, Option.getD_some]
  rfl

theorem buildInstructions_next_record (cfg : Config) (cb : String)
    (hp : cfg.PRESS_DIGIT.isEmpty = false)
    (hf : strTruthy cfg.FORWARD_TO_NUMBER = false) :
    (JVal.obj (buildInstructions cfg cb)).get? "next" =
      some (JVal.obj [("record", JVal.str cb), ("timelimit", JVal.int cfg.RECORDING_LIMIT)]) := by
  simp only [buildInstructions, hp, Bool.not_false, if_true, hf, Bool.false_eq_true, if_false]
  rfl

theorem buildInstructions_connect (cfg : Config) (cb fwd : String)
    (hp : cfg.PRESS_DIGIT = "")
    (hf : cfg.FORWARD_TO_NUMBER = some fwd) (hne : fwd ≠ "") :
    buildInstructions cfg cb = [("recordcall", JVal.str cb), ("connect", JVal.str fwd)] := by
  have hp' : cfg.PRESS_DIGIT.isEmpty = true := by rw [hp]; rfl
  have ht : strTruthy (some fwd) = true := by
    simp [strTruthy, isEmpty_false_of_ne hne]
  simp only [buildInstructions, hp', Bool.not_true, Bool.false_eq_true, if_false, hf, ht,
    if_true, Option.getD_some]
  rfl

theorem buildInstructions_record (cfg : Config) (cb : String)
    (hp : cfg.PRESS_DIGIT = "") (hf : strTruthy cfg.FORWARD_TO_NUMBER = false) :
    buildInstructions cfg cb = [("recordcall", JVal.str cb),
      ("record", JVal.str cb), ("timelimit", JVal.int cfg.RECORDING_LIMIT)] := by
  have hp' : cfg.PRESS_DIGIT.isEmpty = true := by rw [hp]; rfl
  simp only [buildInstructions, hp', Bool.not_true, Bool.false_eq_true, if_false, hf]
  rfl

theorem lookup_firstOnly (p : Params) (k : String) :
    (firstOnly p).lookup k = (p.lookup k).map (·.take 1) := by
  unfold firstOnly Params.lookup
  rw [List.find?_map]
  have hpred : ((fun kv : String × List String => kv.1 == k) ∘
      fun kv : String × List String => (kv.1, kv.2.take 1)) =
      fun kv : String × List String => kv.1 == k := rfl
  rw [hpred]
  cases p.find? (fun kv : String × List String => kv.1 == k) <;> rfl

theorem hasKey_firstOnly (p : Params) (k : String) :
    (firstOnly p).hasKey k = p.hasKey k := by
  unfold Params.hasKey
  rw [lookup_firstOnly]
  cases p.lookup k <;> rfl

theorem getFirst_firstOnly (p : Params) (k d : String) :
    (firstOnly p).getFirst k d = p.getFirst k d := by
  unfold Params.getFirst
  rw [lookup_firstOnly]
  cases hv : p.lookup k with
  | none => rfl
  | some vs => cases vs <;> rfl

theorem handle_voice_firstOnly (cfg : Config) (hostHeader : Option String) (p : Params) :
    handle_voice cfg hostHeader (firstOnly p) = handle_voice cfg hostHeader p := by
  simp only [handle_voice, getFirst_firstOnly, hasKey_firstOnly]

theorem handle_sms_firstOnly (p : Params) :
    handle_sms (firstOnly p) = handle_sms p := by
  simp only [handle_sms, getFirst_firstOnly]

theorem handle_params_firstOnly (cfg : Config) (hostHeader : Option String) (p : Params) :
    handle_params cfg hostHeader (firstOnly p) = handle_params cfg hostHeader p := by
  simp only [handle_params, hasKey_firstOnly, handle_voice_firstOnly, handle_sms_firstOnly]

/-- C1: for every well-formed POST, if the decoded form parameters contain
a callid key the request is handled as a voice event, and otherwise as an
SMS event. -/
theorem dispatch_rule (cfg : Config) (hostHeader : Option String) (body : String) :
    ((parse_qs body).hasKey "callid" = true →
      do_POST cfg hostHeader body = handle_voice cfg hostHeader (parse_qs body)) ∧
    ((parse_qs body).hasKey "callid" = false →
      do_POST cfg hostHeader body = handle_sms (parse_qs body)) := by
  constructor <;> intro h <;> simp [do_POST, handle_params, h]

theorem dispatch_rule_witness :
    do_POST ⟨"0", 60, none⟩ none "callid=abc" =
      handle_voice ⟨"0", 60, none⟩ none (parse_qs "callid=abc") ∧
    do_POST ⟨"0", 60, none⟩ none "from=alice" = handle_sms (parse_qs "from=alice") :=
  ⟨(dispatch_rule ⟨"0", 60, none⟩ none "callid=abc").1 (by decide),
   (dispatch_rule ⟨"0", 60, none⟩ none "from=alice").2 (by decide)⟩

/-- C2: for every POST whose parameters contain callid but not
recording_url, the response has status 200 with JSON content type, and
the JSON object contains a recordcall key equal to https:// followed by
the Host header, falling back to localhost:5000 when no Host header is
present. -/
theorem voice_initial_recordcall (cfg : Config) (hostHeader : Option String) (body : String)
    (hc : (parse_qs body).hasKey "callid" = true)
    (hr : (parse_qs body).hasKey "recording_url" = false) :
    ∃ out, do_POST cfg hostHeader body = some out ∧
      out.response.status = 200 ∧
      out.response.contentType = "application/json" ∧
      out.response.jsonField "recordcall" =
        some (JVal.str ("https://" ++ hostHeader.getD "localhost:5000")) := by
  obtain ⟨out, hout, hresp⟩ := handle_voice_initial (parse_qs_wf body) cfg hostHeader hr
  refine ⟨out, by simp [do_POST, handle_params, hc, hout], ?_, ?_, ?_⟩
  · rw [hresp]
  · rw [hresp]
  · simp only [hresp, Response.jsonField, buildInstructions_recordcall]

theorem voice_initial_recordcall_witness :
    ∃ out, do_POST ⟨"0", 60, none⟩ none "callid=abc" = some out ∧
      out.response.status = 200 ∧
      out.response.contentType = "application/json" ∧
      out.response.jsonField "recordcall" = some (JVal.str "https://localhost:5000") :=
  voice_initial_recordcall ⟨"0", 60, none⟩ none "callid=abc" (by decide) (by decide)

/-- C3: in the initial voice case, whenever the configured press digit is
a non-empty string, the response JSON contains a play key equal to
sound/dtmf/ followed by ten pause characters and the digit, and a next
key that connects to the forwarding number when one is configured and
otherwise records with the configured time limit. -/
theorem voice_press_digit (cfg : Config) (hostHeader : Option String) (body : String)
    (hc : (parse_qs body).hasKey "callid" = true)
    (hr : (parse_qs body).hasKey "recording_url" = false)
    (hp : cfg.PRESS_DIGIT ≠ "") :
    ∃ out, do_POST cfg hostHeader body = some out ∧
      out.response.jsonField "play" =
        some (JVal.str ("sound/dtmf/PPPPPPPPPP" ++ cfg.PRESS_DIGIT)) ∧
      (∀ fwd, cfg.FORWARD_TO_NUMBER = some fwd → fwd ≠ "" →
        out.response.jsonField "next" = some (JVal.obj [("connect", JVal.str fwd)])) ∧
      (strTruthy cfg.FORWARD_TO_NUMBER = false →
        out.response.jsonField "next" = some (JVal.obj
          [("record", JVal.str ("https://" ++ hostHeader.getD "localhost:5000")),
           ("timelimit", JVal.int cfg.RECORDING_LIMIT)])) := by
  have hp' := isEmpty_false_of_ne hp
  obtain ⟨out, hout, hresp⟩ := handle_voice_initial (parse_qs_wf body) cfg hostHeader hr
  refine ⟨out, by simp [do_POST, handle_params, hc, hout], ?_, ?_, ?_⟩
  · simp only [hresp, Response.jsonField, buildInstructions_play cfg _ hp']
  · intro fwd hf hne
    simp only [hresp, Response.jsonField, buildInstructions_next_connect cfg _ fwd hp' hf hne]
  · intro hfwd
    simp only [hresp, Response.jsonField, buildInstructions_next_record cfg _ hp' hfwd]

theorem voice_press_digit_witness :
    ∃ out, do_POST ⟨"5", 60, some "+1234"⟩ none "callid=abc" = some out ∧
      out.response.jsonField "play" = some (JVal.str "sound/dtmf/PPPPPPPPPP5") ∧
      out.response.jsonField "next" = some (JVal.obj [("connect", JVal.str "+1234")]) := by
  obtain ⟨out, h1, h2, h3, h4⟩ :=
    voice_press_digit ⟨"5", 60, some "+1234"⟩ none "callid=abc" (by decide) (by decide) (by decide)
  exact ⟨out, h1, h2, h3 "+1234" rfl (by decide)⟩

/-- C4: in the initial voice case, whenever the configured press digit is
empty and a forwarding number is configured, the response JSON contains a
connect key equal to the forwarding number and none of the keys play,
next or record. -/
theorem voice_forward_only (cfg : Config) (hostHeader : Option String) (body : String)
    (fwd : String)
    (hc : (parse_qs body).hasKey "callid" = true)
    (hr : (parse_qs body).hasKey "recording_url" = false)
    (hp : cfg.PRESS_DIGIT = "")
    (hf : cfg.FORWARD_TO_NUMBER = some fwd) (hne : fwd ≠ "") :
    ∃ out, do_POST cfg hostHeader body = some out ∧
      out.response.jsonField "connect" = some (JVal.str fwd) ∧
      out.response.jsonField "play" = none ∧
      out.response.jsonField "next" = none ∧
      out.response.jsonField "record" = none := by
  obtain ⟨out, hout, hresp⟩ := handle_voice_initial (parse_qs_wf body) cfg hostHeader hr
  have hb := buildInstructions_connect cfg ("https://" ++ hostHeader.getD "localhost:5000")
    fwd hp hf hne
  refine ⟨out, by simp [do_POST, handle_params, hc, hout], ?_, ?_, ?_, ?_⟩ <;>
    simp only [hresp, Response.jsonField, hb] <;> rfl

theorem voice_forward_only_witness :
    ∃ out, do_POST ⟨"", 60, some "+1234"⟩ none "callid=abc" = some out ∧
      out.response.jsonField "connect" = some (JVal.str "+1234") ∧
      out.response.jsonField "play" = none ∧
      out.response.jsonField "next" = none ∧
      out.response.jsonField "record" = none :=
  voice_forward_only ⟨"", 60, some "+1234"⟩ none "callid=abc" "+1234"
    (by decide) (by decide) rfl rfl (by decide)

/-- C5: in the initial voice case, whenever the configured press digit is
empty and no forwarding number is configured, the response JSON contains
a record key equal to the callback URL and a timelimit key equal to the
configured recording limit. -/
theorem voice_record_fallback (cfg : Config) (hostHeader : Option String) (body : String)
    (hc : (parse_qs body).hasKey "callid" = true)
    (hr : (parse_qs body).hasKey "recording_url" = false)
    (hp : cfg.PRESS_DIGIT = "")
    (hf : strTruthy cfg.FORWARD_TO_NUMBER = false) :
    ∃ out, do_POST cfg hostHeader body = some out ∧
      out.response.jsonField "record" =
        some (JVal.str ("https://" ++ hostHeader.getD "localhost:5000")) ∧
      out.response.jsonField "timelimit" = some (JVal.int cfg.RECORDING_LIMIT) := by
  obtain ⟨out, hout, hresp⟩ := handle_voice_initial (parse_qs_wf body) cfg hostHeader hr
  have hb := buildInstructions_record cfg ("https://" ++ hostHeader.getD "localhost:5000") hp hf
  refine ⟨out, by simp [do_POST, handle_params, hc, hout], ?_, ?_⟩ <;>
    simp only [hresp, Response.jsonField, hb] <;> rfl

theorem voice_record_fallback_witness :
    ∃ out, do_POST ⟨"", 60, none⟩ (some "bridge.example") "callid=abc" = some out ∧
      out.response.jsonField "record" = some (JVal.str "https://bridge.example") ∧
      out.response.jsonField "timelimit" = some (JVal.int 60) :=
  voice_record_fallback ⟨"", 60, none⟩ (some "bridge.example") "callid=abc"
    (by decide) (by decide) rfl rfl

/-- C6: for every POST whose parameters contain both callid and
recording_url, the response has status 200, content type text/plain and
body exactly OK, and no call-control instruction is issued: the body is
not a JSON object, so every JSON field lookup yields none. -/
theorem voice_recording_finished (cfg : Config) (hostHeader : Option String) (body : String)
    (hc : (parse_qs body).hasKey "callid" = true)
    (hr : (parse_qs body).hasKey "recording_url" = true) :
    ∃ out, do_POST cfg hostHeader body = some out ∧
      out.response.status = 200 ∧
      out.response.contentType = "text/plain" ∧
      out.response.body = Body.text "OK" ∧
      ∀ k, out.response.jsonField k = none := by
  obtain ⟨out, hout, hresp⟩ := handle_voice_recording (parse_qs_wf body) cfg hostHeader hr
  refine ⟨out, by simp [do_POST, handle_params, hc, hout], ?_, ?_, ?_, ?_⟩
  · rw [hresp]; rfl
  · rw [hresp]; rfl
  · rw [hresp]; rfl
  · intro k; rw [hresp]; rfl

theorem voice_recording_finished_witness :
    ∃ out, do_POST ⟨"0", 60, none⟩ none "callid=abc&recording_url=u" = some out ∧
      out.response.status = 200 ∧
      out.response.contentType = "text/plain" ∧
      out.response.body = Body.text "OK" ∧
      ∀ k, out.response.jsonField k = none :=
  voice_recording_finished ⟨"0", 60, none⟩ none "callid=abc&recording_url=u"
    (by decide) (by decide)

/-- C7: every well-formed POST gets a status 200 response; when the
parameters lack callid the body is exactly OK with text/plain content
type, and absent from and message fields default to Unknown and to the
empty string in the logged output. -/
theorem sms_defaults_always_ok (cfg : Config) (hostHeader : Option String) (body : String) :
    ∃ out, do_POST cfg hostHeader body = some out ∧ out.response.status = 200 ∧
      ((parse_qs body).hasKey "callid" = false →
        out.response.contentType = "text/plain" ∧ out.response.body = Body.text "OK") ∧
      ((parse_qs body).hasKey "callid" = false → (parse_qs body).hasKey "from" = false →
        "From:    Unknown" ∈ out.logs) ∧
      ((parse_qs body).hasKey "callid" = false → (parse_qs body).hasKey "message" = false →
        "Message: " ∈ out.logs) := by
  cases hck : (parse_qs body).hasKey "callid" with
  | true =>
    obtain ⟨out, hout, hst⟩ := handle_voice_status (parse_qs_wf body) cfg hostHeader
    refine ⟨out, by simp [do_POST, handle_params, hck, hout], hst, ?_, ?_, ?_⟩ <;>
      (intro hc; exact Bool.noConfusion hc)
  | false =>
    obtain ⟨f, hfv⟩ := getFirst_eq_some (parse_qs_wf body) "from" "Unknown"
    obtain ⟨m, hmv⟩ := getFirst_eq_some (parse_qs_wf body) "message" ""
    have heq := handle_sms_eq hfv hmv
    refine ⟨⟨["\n" ++ eqLine, "NEW INCOMING SMS", "From:    " ++ f, "Message: " ++ m,
      eqLine ++ "\n"], okResponse⟩, ?_, rfl, fun _ => ⟨rfl, rfl⟩, ?_, ?_⟩
    · simp [do_POST, handle_params, hck, heq]
    · intro _ hfk
      have hfu : f = "Unknown" := by
        have h := getFirst_of_not_hasKey hfk "Unknown"
        rw [hfv] at h
        exact Option.some_inj.mp h
      subst hfu
      exact List.mem_cons_of_mem _ (List.mem_cons_of_mem _ (List.mem_cons_self _ _))
    · intro _ hmk
      have hme : m = "" := by
        have h := getFirst_of_not_hasKey hmk ""
        rw [hmv] at h
        exact Option.some_inj.mp h
      subst hme
      exact List.mem_cons_of_mem _ (List.mem_cons_of_mem _ (List.mem_cons_of_mem _
        (List.mem_cons_self _ _)))

theorem sms_defaults_always_ok_witness :
    ∃ out, do_POST ⟨"0", 60, none⟩ none "junk=1" = some out ∧
      out.response.status = 200 ∧
      out.response.contentType = "text/plain" ∧
      out.response.body = Body.text "OK" ∧
      "From:    Unknown" ∈ out.logs ∧ "Message: " ∈ out.logs := by
  obtain ⟨out, h1, h2, h3, h4, h5⟩ := sms_defaults_always_ok ⟨"0", 60, none⟩ none "junk=1"
  obtain ⟨hct, hbody⟩ := h3 (by decide)
  exact ⟨out, h1, h2, hct, hbody, h4 (by decide) (by decide), h5 (by decide) (by decide)⟩

/-- C8: only the first value of each key influences the response and the
logged output: dispatching the parameter map restricted to each key's
first value produces exactly the output of the POST handler on the full
body. -/
theorem first_value_determines (cfg : Config) (hostHeader : Option String) (body : String) :
    handle_params cfg hostHeader (firstOnly (parse_qs body)) = do_POST cfg hostHeader body :=
  handle_params_firstOnly cfg hostHeader (parse_qs body)

/-- C9: sending the same SMS payload twice produces two independent
responses, each with status 200 and body OK; the handler output is a
pure function of the request body, the Host header and the startup
configuration, so no state is carried between the requests. -/
theorem sms_idempotent (cfg : Config) (hostHeader : Option String) (body : String)
    (hc : (parse_qs body).hasKey "callid" = false) :
    ∃ out, serve cfg hostHeader [body, body] = [some out, some out] ∧
      out.response.status = 200 ∧ out.response.body = Body.text "OK" := by
  obtain ⟨f, hfv⟩ := getFirst_eq_some (parse_qs_wf body) "from" "Unknown"
  obtain ⟨m, hmv⟩ := getFirst_eq_some (parse_qs_wf body) "message" ""
  have heq := handle_sms_eq hfv hmv
  refine ⟨⟨["\n" ++ eqLine, "NEW INCOMING SMS", "From:    " ++ f, "Message: " ++ m,
    eqLine ++ "\n"], okResponse⟩, ?_, rfl, rfl⟩
  simp [serve, do_POST, handle_params, hc, heq]

theorem sms_idempotent_witness :
    ∃ out, serve ⟨"0", 60, none⟩ none ["from=alice", "from=alice"] = [some out, some out] ∧
      out.response.status = 200 ∧ out.response.body = Body.text "OK" :=
  sms_idempotent ⟨"0", 60, none⟩ none "from=alice" (by decide)

/-- C10: a form field whose value is blank is treated as absent: the body
callid= (alone or followed by further pairs) decodes to a parameter map
without the callid key, so such a POST is dispatched as an SMS event. -/
theorem blank_value_dispatch (cfg : Config) (hostHeader : Option String) :
    (parse_qs "callid=").hasKey "callid" = false ∧
    (parse_qs "callid=&from=X").hasKey "callid" = false ∧
    do_POST cfg hostHeader "callid=" = handle_sms (parse_qs "callid=") ∧
    do_POST cfg hostHeader "callid=&from=X" = handle_sms (parse_qs "callid=&from=X") := by
  refine ⟨by decide, by decide, ?_, ?_⟩ <;> rfl

end ElksBridge
